import Mathlib

/-
Verification of the PricePilot price-tracking core against its
specification.  The definitions below are a shallow embedding of the
Python source:

  * sites/amazon.py, sites/ebay.py, sites/etsy.py - extract_price and the
    amazon retry loop of scrape_product;
  * scraper.py - clean_title, clean_availability, the Product /
    PriceHistory tables, cleanup_orphaned_data and save_to_db;
  * db_utils.py - get_email_alerts.

Prices are modelled as Option Rat (Python float / None), calendar dates as
Nat ordinals, and database tables as lists of rows.
-/

set_option autoImplicit false

namespace PricePilot

/-! ## Python string primitives used by the scrapers -/

/-- The whitespace characters stripped by Python's str.strip() and used as
separators by str.split() (ASCII subset; the strings handled by the
scrapers contain no non-ASCII whitespace). -/
def pySpace (c : Char) : Bool :=
  c == ' ' || c == '\t' || c == '\n' || c == '\r' || c == '\x0b' || c == '\x0c'

/-- Python str.strip(): drop leading and trailing whitespace. -/
def pyStrip (cs : List Char) : List Char :=
  ((cs.dropWhile pySpace).reverse.dropWhile pySpace).reverse

/-- Worker for pySplitWS accumulating the current word in reverse. -/
def splitWSAux : List Char → List Char → List (List Char)
  | [], acc => if acc.isEmpty then [] else [acc.reverse]
  | c :: rest, acc =>
    if pySpace c then
      if acc.isEmpty then splitWSAux rest []
      else acc.reverse :: splitWSAux rest []
    else splitWSAux rest (c :: acc)

/-- Python str.split() with no arguments: split on whitespace runs,
dropping empty pieces. -/
def pySplitWS (cs : List Char) : List (List Char) :=
  splitWSAux cs []

/-- Python ' '.join(words). -/
def joinSpace : List (List Char) → List Char
  | [] => []
  | [w] => w
  | w :: ws => w ++ ' ' :: joinSpace ws

/-! ## PriceNormalizer: extract_price of sites/amazon.py, sites/ebay.py and
sites/etsy.py -/

/-- Python str.replace('EUR', ''): remove every (left-to-right,
non-overlapping) occurrence of the substring EUR. -/
def removeEUR : List Char → List Char
  | 'E' :: 'U' :: 'R' :: rest => removeEUR rest
  | c :: rest => c :: removeEUR rest
  | [] => []

/-- The regular-expression test re.match applied to the anchored pattern of
one to three digits, a comma, and exactly two digits (the European-decimal
check of extract_price); the final anchor also accepts a single trailing
newline, as in Python. -/
def matchesEuroFormat (cs : List Char) : Bool :=
  let ds := cs.takeWhile Char.isDigit
  let rest := cs.dropWhile Char.isDigit
  decide (1 ≤ ds.length ∧ ds.length ≤ 3) &&
    match rest with
    | ',' :: d1 :: d2 :: rest2 =>
      d1.isDigit && d2.isDigit && (rest2.isEmpty || rest2 == ['\n'])
    | _ => false

/-- The optional fractional part of the first regex of extract_price: a dot
followed greedily by one or two digits, or nothing. -/
def fracPart : List Char → List Char
  | '.' :: d1 :: d2 :: _ =>
    if d1.isDigit then (if d2.isDigit then ['.', d1, d2] else ['.', d1]) else []
  | '.' :: d1 :: [] => if d1.isDigit then ['.', d1] else []
  | _ => []

/-- re.search for the pattern digits-then-optional-dot-and-one-or-two-digits:
the leftmost maximal digit run together with its optional fraction.  The
second, digits-only pattern of extract_price is subsumed (whenever the text
holds a digit, the first pattern already matches), so this is the whole
extraction step.  Python's digit class also covers non-ASCII decimal
digits; the pages handled here only carry ASCII digits, which is what
Char.isDigit models. -/
def findNum : List Char → Option (List Char)
  | [] => none
  | c :: rest =>
    if c.isDigit then
      some ((c :: rest.takeWhile Char.isDigit) ++ fracPart (rest.dropWhile Char.isDigit))
    else findNum rest

/-- The cleaning phase of extract_price: strip the currency glyphs (and,
for the eBay/Etsy variant, the EUR code), strip surrounding whitespace,
then disambiguate the comma - thousands separator when a dot is also
present or the European-decimal pattern fails, decimal point otherwise. -/
def cleanedText (stripEUR : Bool) (price_text : String) : List Char :=
  let cs := price_text.data.filter (fun c => !(c == '$' || c == '£' || c == '€'))
  let cs := if stripEUR then removeEUR cs else cs
  let cleaned := pyStrip cs
  if cleaned.contains ',' && cleaned.contains '.' then
    cleaned.filter (fun c => !(c == ','))
  else if cleaned.contains ',' then
    if matchesEuroFormat cleaned then
      cleaned.map (fun c => if c == ',' then '.' else c)
    else cleaned.filter (fun c => !(c == ','))
  else cleaned

/-- extract_price, shared body of sites/amazon.py (lines 14-40, no EUR
strip) and sites/ebay.py lines 10-53 / sites/etsy.py lines 9-53 (with EUR
strip).  Returns none for the Python sentinel string NA. -/
def extract_price_core (stripEUR : Bool) (price_text : String) : Option String :=
  if price_text = "" then none
  else (findNum (cleanedText stripEUR price_text)).map String.mk

/-- extract_price of sites/amazon.py (strips the currency glyphs but not
the EUR code). -/
def amazon_extract_price : String → Option String :=
  extract_price_core false

/-- extract_price of sites/ebay.py. -/
def ebay_extract_price : String → Option String :=
  extract_price_core true

/-- extract_price of sites/etsy.py (textually identical to the eBay
variant). -/
def etsy_extract_price : String → Option String :=
  extract_price_core true

/-- Numeric value of a digit run, most significant first. -/
def digitsVal (ds : List Char) : Nat :=
  ds.foldl (fun a c => 10 * a + (c.toNat - 48)) 0

/-- The rational denoted by integer part ip and a k-digit fractional part
fp. -/
def ratOfParts (ip fp k : Nat) : ℚ :=
  (ip : ℚ) + (fp : ℚ) / (10 : ℚ) ^ k

/-- Python float() on an unsigned decimal numeral: digits with an optional
dot and further digits (the only shapes extract_price can produce).
Anything else is a ValueError, modelled as none. -/
def pyFloatMag (cs : List Char) : Option ℚ :=
  let ip := cs.takeWhile Char.isDigit
  if ip.isEmpty then none
  else
    match cs.dropWhile Char.isDigit with
    | [] => some (ratOfParts (digitsVal ip) 0 0)
    | '.' :: fp =>
      if fp.isEmpty then some (ratOfParts (digitsVal ip) 0 0)
      else if fp.all Char.isDigit then
        some (ratOfParts (digitsVal ip) (digitsVal fp) fp.length)
      else none
    | _ => none

/-- Python float() restricted to optionally signed decimal numerals; this
is the conversion applied by save_to_db (scraper.py line 141) to the string
extract_price returns. -/
def pyFloat (s : String) : Option ℚ :=
  match s.data with
  | '-' :: rest => (pyFloatMag rest).map (fun q => -q)
  | '+' :: rest => pyFloatMag rest
  | cs => pyFloatMag cs

/-- The full normalization pipeline for an Amazon price text: extract_price
followed by the float() conversion of save_to_db. -/
def amazon_normalize (s : String) : Option ℚ :=
  (amazon_extract_price s).bind pyFloat

/-- The full normalization pipeline for an eBay price text. -/
def ebay_normalize (s : String) : Option ℚ :=
  (ebay_extract_price s).bind pyFloat

/-- The full normalization pipeline for an Etsy price text. -/
def etsy_normalize (s : String) : Option ℚ :=
  (etsy_extract_price s).bind pyFloat

/-! ## Data model: the product and pricehistory tables of scraper.py -/

/-- A row of the product table (scraper.py lines 62-66): unique URL and a
mutable display name. -/
structure Product where
  id : Nat
  name : String
  url : String
deriving DecidableEq, Repr

/-- A row of the pricehistory table (scraper.py lines 68-75): one price
observation, keyed by (product_id, date) through a unique constraint; a
price of none is the undetermined sentinel (SQL NULL). -/
structure PriceHistory where
  product_id : Nat
  date : Nat
  price : Option ℚ
  availability : String
deriving DecidableEq, Repr

/-- The prices.db store: both tables. -/
structure PricesDB where
  products : List Product
  history : List PriceHistory
deriving DecidableEq, Repr

/-- One scrape result dict as produced by the site handlers and consumed by
save_to_db.  The price field holds the value of the Python expression
float(row) when row is not None, the empty string or NA, and none
otherwise (scraper.py line 141). -/
structure Row where
  product_name : String
  price : Option ℚ
  availability : String
  url : String
deriving DecidableEq, Repr

/-- An emitted price-drop alert: the arguments of send_price_drop_alert at
scraper.py line 170 that identify the transition. -/
structure AlertEvent where
  product_id : Nat
  old_price : ℚ
  new_price : ℚ
deriving DecidableEq, Repr

/-- The deduplication key of an alert, as stored in the per-run alerted set
(scraper.py lines 125 and 167). -/
def AlertEvent.key (e : AlertEvent) : Nat × ℚ × ℚ :=
  (e.product_id, e.old_price, e.new_price)

/-! ## scraper.py helpers and operations -/

/-- clean_title of scraper.py lines 20-21: collapse whitespace runs to
single spaces and strip the ends. -/
def clean_title (t : String) : String :=
  String.mk (pyStrip (joinSpace (pySplitWS t.data)))

/-- clean_availability of scraper.py lines 24-27. -/
def clean_availability (avail : String) : String :=
  if avail = "" then "Unknown"
  else String.mk (pyStrip (joinSpace (pySplitWS avail.data)))

/-- The sqlite upsert of save_to_db (scraper.py lines 133-135): insert a
product by URL, or on URL conflict overwrite the stored name with the new
one.  A fresh row receives the next autoincrement id. -/
def upsertProduct (ps : List Product) (name url : String) : List Product :=
  if ps.any (fun p => p.url == url) then
    ps.map (fun p => if p.url == url then { p with name := name } else p)
  else
    ps ++ [⟨(ps.map Product.id).foldr max 0 + 1, name, url⟩]

/-- The previous-observation query of save_to_db (scraper.py lines
144-150): among this product's rows strictly before today, the one with
the greatest date. -/
def previousObservation (hist : List PriceHistory) (pid today : Nat) :
    Option PriceHistory :=
  (hist.filter (fun o => o.product_id == pid && decide (o.date < today))).foldl
    (fun acc o =>
      match acc with
      | none => some o
      | some b => if b.date < o.date then some o else acc)
    none

/-- Outcome of appending a daily observation. -/
inductive AppendResult where
  | inserted
  | alreadyPresent
deriving DecidableEq, Repr

/-- The existence check and conditional insert of save_to_db (scraper.py
lines 151-163): a second row for the same (product_id, date) is a silent
no-op. -/
def appendObservation (hist : List PriceHistory) (pid today : Nat)
    (price : Option ℚ) (avail : String) : List PriceHistory × AppendResult :=
  if hist.any (fun o => o.product_id == pid && o.date == today) then
    (hist, .alreadyPresent)
  else
    (hist ++ [⟨pid, today, price, avail⟩], .inserted)

/-- get_email_alerts of db_utils.py lines 111-118, as a function of the
settings-row value for the email_alerts key: enabled when the stored value
is the string 1, and enabled by default when the row is absent. -/
def get_email_alerts (row : Option String) : Bool :=
  match row with
  | some v => v == "1"
  | none => true

/-- The state threaded through one save_to_db run: the store, the in-memory
alerted set of dedup keys, and the alerts emitted so far. -/
structure RunState where
  db : PricesDB
  alerted : List (Nat × ℚ × ℚ)
  events : List AlertEvent
deriving DecidableEq, Repr

/-- The body of the per-row loop of save_to_db (scraper.py lines 128-173):
clean the fields, upsert the product, look up its id, fetch the previous
observation, append today's observation unless the slot is taken, and emit
at most one deduplicated price-drop alert.  send_price_drop_alert
(email_utils.py) swallows every delivery error internally, so emission and
the alerted-set insertion always happen together. -/
def saveRow (emailEnabled : Bool) (today : Nat) (st : RunState) (row : Row) :
    RunState :=
  let name := clean_title row.product_name
  let avail := clean_availability row.availability
  let products := upsertProduct st.db.products name row.url
  match products.find? (fun p => p.url == row.url) with
  | none => { st with db := { st.db with products := products } }
  | some prod =>
    let prod_id := prod.id
    let price_val := row.price
    let prev_row := previousObservation st.db.history prod_id today
    let hist := (appendObservation st.db.history prod_id today price_val avail).1
    match prev_row, price_val with
    | some pr, some pv =>
      match pr.price with
      | some pp =>
        if emailEnabled && decide (pv < pp) then
          if (prod_id, pp, pv) ∈ st.alerted then ⟨⟨products, hist⟩, st.alerted, st.events⟩
          else ⟨⟨products, hist⟩, (prod_id, pp, pv) :: st.alerted,
            st.events ++ [⟨prod_id, pp, pv⟩]⟩
        else ⟨⟨products, hist⟩, st.alerted, st.events⟩
      | none => ⟨⟨products, hist⟩, st.alerted, st.events⟩
    | _, _ => ⟨⟨products, hist⟩, st.alerted, st.events⟩

/-- save_to_db of scraper.py lines 124-174: read the email toggle once,
start with an empty alerted set, and process the scrape results in order.
The emailEnabled argument is the value read once at line 126. -/
def save_to_db (emailEnabled : Bool) (today : Nat) (db : PricesDB)
    (results : List Row) : RunState :=
  results.foldl (saveRow emailEnabled today) ⟨db, [], []⟩

/-- cleanup_orphaned_data of scraper.py lines 85-122: collect the ids of
products whose URL is not tracked, then delete their price history and the
products themselves (when the orphan list is empty the deletes are skipped,
which filters model as the identity). -/
def cleanup_orphaned_data (tracked : List String) (db : PricesDB) : PricesDB :=
  let orphaned := (db.products.filter (fun p => decide (p.url ∉ tracked))).map Product.id
  ⟨db.products.filter (fun p => decide (p.id ∉ orphaned)),
    db.history.filter (fun o => decide (o.product_id ∉ orphaned))⟩

/-! ## FetchPolicy: the retry loop of sites/amazon.py scrape_product -/

/-- The rotation pool of sites/amazon.py lines 42-47. -/
def USER_AGENTS : List String :=
  ["Mozilla/5.0 (Windows NT 10.0; Win64; x64) AppleWebKit/537.36 (KHTML, like Gecko) Chrome/127.0.0.0 Safari/537.36",
   "Mozilla/5.0 (Macintosh; Intel Mac OS X 10_15_7) AppleWebKit/605.1.15 (KHTML, like Gecko) Version/17.0 Safari/605.1.15",
   "Mozilla/5.0 (X11; Linux x86_64) AppleWebKit/537.36 (KHTML, like Gecko) Chrome/126.0.0.0 Safari/537.36",
   "Mozilla/5.0 (Windows NT 10.0; Win64; x64; rv:127.0) Gecko/20100101 Firefox/127.0"]

/-- The list comprehension of sites/amazon.py line 105.  The comprehension
variable shadows the current user agent, so the filter compares each pool
entry with itself and the result is always empty; the Lean binder shadows
the parameter the same way the Python one does. -/
def rotationCandidates (current : String) : List String :=
  USER_AGENTS.filter (fun current => current != current)

/-- random.choice: some element of a non-empty sequence (determinized to
the head; which element is chosen never affects the properties proved
here), and an IndexError - modelled as none - on an empty one. -/
def randomChoice {α : Type} (l : List α) : Option α :=
  l.head?

/-- Observable trace of one amazon scrape_product call: how many times the
page was fetched, how many ten-second cool-down sleeps ran, and the
product_name tag of the returned dict. -/
structure ChallengeRun where
  fetches : Nat
  waits : Nat
  tag : String
deriving DecidableEq, Repr

/-- The while-loop of sites/amazon.py scrape_product (lines 49-309),
specialized to the scenario of claim C1 in which every fetch+extract cycle
reports the bot challenge.  Each iteration fetches the page once and takes
the challenge branch of lines 88-114: bump attempt; below max_retries,
sleep ten seconds and pick a new user agent from rotationCandidates - an
empty list, so random.choice raises IndexError, which the generic handler
of lines 286-302 absorbs: bump attempt again and, below max_retries, sleep
again and loop.  At max_retries the challenge branch returns the Bot
Protection Detected sentinel, the generic handler returns the Scraping
Error sentinel, and falling out of the loop returns the Error dict of line
303.  Fuel bounds the recursion; attempt grows every iteration, so
max_retries + 1 units are never exhausted. -/
def amazonChallengeLoop : Nat → Nat → Nat → Nat → Nat → ChallengeRun
  | 0, _, _, fetches, waits => ⟨fetches, waits, "FUEL"⟩
  | fuel + 1, attempt, maxRetries, fetches, waits =>
    if attempt < maxRetries then
      let fetches := fetches + 1
      let attempt := attempt + 1
      if attempt < maxRetries then
        let waits := waits + 1
        match randomChoice (rotationCandidates "") with
        | some _ => amazonChallengeLoop fuel attempt maxRetries fetches waits
        | none =>
          let attempt := attempt + 1
          if attempt < maxRetries then
            amazonChallengeLoop fuel attempt maxRetries fetches (waits + 1)
          else ⟨fetches, waits, "Scraping Error"⟩
      else ⟨fetches, waits, "Bot Protection Detected"⟩
    else ⟨fetches, waits, "Error"⟩

/-- A full amazon scrape_product call under the all-challenge scenario,
starting from attempt 0 with the given max_retries (the default is 3). -/
def amazonAllChallenge (maxRetries : Nat) : ChallengeRun :=
  amazonChallengeLoop (maxRetries + 1) 0 maxRetries 0 0

/-! Helper lemmas about the run model. -/

/-- With the email toggle off, one save_to_db loop iteration emits
nothing. -/
theorem saveRow_events_disabled (today : Nat) (st : RunState) (row : Row) :
    (saveRow false today st row).events = st.events := by
  simp only [saveRow]
  split
  · rfl
  · split
    · split
      · simp
      · rfl
    · rfl

/-- With the email toggle off, a whole save_to_db run emits nothing. -/
theorem save_to_db_disabled (today : Nat) (db : PricesDB) (results : List Row) :
    (save_to_db false today db results).events = [] := by
  suffices h : ∀ st : RunState, (results.foldl (saveRow false today) st).events = st.events by
    simpa [save_to_db] using h ⟨db, [], []⟩
  induction results with
  | nil => intro st; rfl
  | cons r rs ih => intro st; rw [List.foldl_cons, ih, saveRow_events_disabled]

/-- One save_to_db loop iteration preserves the deduplication invariant:
every emitted alert key is recorded in the alerted set, and the emitted
keys are pairwise distinct. -/
theorem saveRow_key_inv (emailEnabled : Bool) (today : Nat) (st : RunState) (row : Row)
    (h1 : ∀ e ∈ st.events, e.key ∈ st.alerted)
    (h2 : (st.events.map AlertEvent.key).Nodup) :
    (∀ e ∈ (saveRow emailEnabled today st row).events,
        e.key ∈ (saveRow emailEnabled today st row).alerted) ∧
    ((saveRow emailEnabled today st row).events.map AlertEvent.key).Nodup := by
  simp only [saveRow]
  split
  · exact ⟨h1, h2⟩
  next prod hfind =>
    split
    next pr pv hprev hpv =>
      split
      next pp hpp =>
        split
        next hcond =>
          split
          next hmem => exact ⟨h1, h2⟩
          next hmem =>
            constructor
            · intro e he
              rcases List.mem_append.mp he with h | h
              · exact List.mem_cons_of_mem _ (h1 e h)
              · rcases List.mem_singleton.mp h with rfl
                exact List.mem_cons_self _ _
            · rw [List.map_append, List.nodup_append]
              refine ⟨h2, List.nodup_singleton _, ?_⟩
              intro k hk hk2
              simp only [List.map_cons, List.map_nil, List.mem_singleton] at hk2
              subst hk2
              rcases List.mem_map.mp hk with ⟨e, he, hke⟩
              apply hmem
              have hkey : AlertEvent.key ⟨prod.id, pp, pv⟩ = (prod.id, pp, pv) := rfl
              rw [← hkey, ← hke]
              exact h1 e he
        next => exact ⟨h1, h2⟩
      next => exact ⟨h1, h2⟩
    next => exact ⟨h1, h2⟩

/-- The alerts emitted by a save_to_db run have pairwise distinct
(product, old price, new price) keys. -/
theorem save_to_db_nodup (emailEnabled : Bool) (today : Nat) (db : PricesDB)
    (results : List Row) :
    ((save_to_db emailEnabled today db results).events.map AlertEvent.key).Nodup := by
  suffices h : ∀ st : RunState, (∀ e ∈ st.events, e.key ∈ st.alerted) →
      (st.events.map AlertEvent.key).Nodup →
      (∀ e ∈ (results.foldl (saveRow emailEnabled today) st).events,
          e.key ∈ (results.foldl (saveRow emailEnabled today) st).alerted) ∧
      ((results.foldl (saveRow emailEnabled today) st).events.map AlertEvent.key).Nodup by
    exact (h ⟨db, [], []⟩ (by simp) (by simp)).2
  induction results with
  | nil => intro st ha hb; exact ⟨ha, hb⟩
  | cons r rs ih =>
    intro st ha hb
    have step := saveRow_key_inv emailEnabled today st r ha hb
    exact ih _ step.1 step.2

/-! Helper lemmas about findNum and pyFloat, used to settle claim C8. -/

/-- takeWhile and dropWhile split a list exactly at the boundary between an
all-satisfying block and a block whose head fails the predicate. -/
theorem takeWhile_dropWhile_app (p : Char → Bool) (l1 l2 : List Char)
    (h1 : ∀ c ∈ l1, p c = true)
    (h2 : ∀ c t, l2 = c :: t → p c = false) :
    (l1 ++ l2).takeWhile p = l1 ∧ (l1 ++ l2).dropWhile p = l2 := by
  induction l1 with
  | nil =>
    simp only [List.nil_append]
    cases l2 with
    | nil => simp
    | cons c t =>
      have hc := h2 c t rfl
      simp [List.takeWhile_cons, List.dropWhile_cons, hc]
  | cons c l ih =>
    have hc := h1 c (List.mem_cons_self c l)
    have ih2 := ih (fun x hx => h1 x (List.mem_cons_of_mem c hx))
    simp [List.takeWhile_cons, List.dropWhile_cons, hc, ih2.1, ih2.2]

/-- The fractional part returned by fracPart is empty, or a dot and one
digit, or a dot and two digits. -/
theorem fracPart_shape (l : List Char) :
    fracPart l = [] ∨ (∃ d1, d1.isDigit = true ∧ fracPart l = ['.', d1]) ∨
      (∃ d1 d2, d1.isDigit = true ∧ d2.isDigit = true ∧ fracPart l = ['.', d1, d2]) := by
  unfold fracPart
  split
  next d1 d2 _ =>
    by_cases hd1 : d1.isDigit
    · by_cases hd2 : d2.isDigit
      · right; right; exact ⟨d1, d2, hd1, hd2, by simp [hd1, hd2]⟩
      · right; left; exact ⟨d1, hd1, by simp [hd1, hd2]⟩
    · left; simp [hd1]
  next d1 =>
    by_cases hd1 : d1.isDigit
    · right; left; exact ⟨d1, hd1, by simp [hd1]⟩
    · left; simp [hd1]
  next => left; rfl

/-- Every character kept by takeWhile Char.isDigit is a digit. -/
theorem mem_takeWhile_digit (l : List Char) (c : Char)
    (h : c ∈ l.takeWhile Char.isDigit) : c.isDigit = true := by
  induction l with
  | nil => simp [List.takeWhile] at h
  | cons a as ih =>
    rw [List.takeWhile_cons] at h
    by_cases ha : a.isDigit
    · rw [if_pos ha] at h
      rcases List.mem_cons.mp h with rfl | h
      · exact ha
      · exact ih h
    · rw [if_neg ha] at h
      simp at h

/-- Whatever findNum returns is a non-empty digit run followed by a
well-formed optional fraction. -/
theorem findNum_shape (cs : List Char) (out : List Char) (h : findNum cs = some out) :
    ∃ ds frac, out = ds ++ frac ∧ ds ≠ [] ∧ (∀ c ∈ ds, c.isDigit = true) ∧
      (frac = [] ∨ (∃ d1, d1.isDigit = true ∧ frac = ['.', d1]) ∨
        (∃ d1 d2, d1.isDigit = true ∧ d2.isDigit = true ∧ frac = ['.', d1, d2])) := by
  induction cs with
  | nil => simp [findNum] at h
  | cons c rest ih =>
    rw [findNum] at h
    by_cases hc : c.isDigit
    · rw [if_pos hc] at h
      refine ⟨c :: rest.takeWhile Char.isDigit, fracPart (rest.dropWhile Char.isDigit),
        (Option.some.injEq _ _ ▸ h).symm, by simp, ?_, fracPart_shape _⟩
      intro x hx
      rcases List.mem_cons.mp hx with rfl | hx
      · exact hc
      · exact mem_takeWhile_digit rest x hx
    · rw [if_neg hc] at h
      exact ih h

/-- On a well-formed extraction result, the float conversion succeeds and
the value is non-negative. -/
theorem pyFloatMag_of_shape (ds frac : List Char) (hds : ds ≠ [])
    (hdig : ∀ c ∈ ds, c.isDigit = true)
    (hfrac : frac = [] ∨ (∃ d1, d1.isDigit = true ∧ frac = ['.', d1]) ∨
      (∃ d1 d2, d1.isDigit = true ∧ d2.isDigit = true ∧ frac = ['.', d1, d2])) :
    ∃ q : ℚ, pyFloatMag (ds ++ frac) = some q ∧ 0 ≤ q := by
  have hnotdot : ∀ c t, frac = c :: t → Char.isDigit c = false := by
    rcases hfrac with rfl | ⟨d1, _, rfl⟩ | ⟨d1, d2, _, _, rfl⟩
    · intro c t hct; cases hct
    · intro c t hct; injection hct with h1 _; subst h1; rfl
    · intro c t hct; injection hct with h1 _; subst h1; rfl
  have htw := takeWhile_dropWhile_app Char.isDigit ds frac hdig hnotdot
  have hipe : ds.isEmpty = false := by
    cases ds with
    | nil => exact absurd rfl hds
    | cons a as => rfl
  rcases hfrac with rfl | ⟨d1, hd1, rfl⟩ | ⟨d1, d2, hd1, hd2, rfl⟩
  · refine ⟨ratOfParts (digitsVal ds) 0 0, ?_, ?_⟩
    · simp only [pyFloatMag, htw.1, htw.2, hipe]
      rfl
    · simp only [ratOfParts]
      positivity
  · refine ⟨ratOfParts (digitsVal ds) (digitsVal [d1]) 1, ?_, ?_⟩
    · simp only [pyFloatMag, htw.1, htw.2, hipe]
      simp [hd1]
    · simp only [ratOfParts]
      positivity
  · refine ⟨ratOfParts (digitsVal ds) (digitsVal [d1, d2]) 2, ?_, ?_⟩
    · simp only [pyFloatMag, htw.1, htw.2, hipe]
      simp [hd1, hd2]
    · simp only [ratOfParts]
      positivity

/-- A string beginning with a digit takes the unsigned branch of
pyFloat. -/
theorem pyFloat_of_digit_head (out : List Char) (c : Char) (t : List Char)
    (hout : out = c :: t) (hc : c.isDigit = true) :
    pyFloat (String.mk out) = pyFloatMag out := by
  subst hout
  show (match c :: t with
    | '-' :: rest => (pyFloatMag rest).map (fun q => -q)
    | '+' :: rest => pyFloatMag rest
    | cs => pyFloatMag cs) = pyFloatMag (c :: t)
  split
  next rest heq =>
    injection heq with h1 _
    subst h1
    cases hc
  next rest heq =>
    injection heq with h1 _
    subst h1
    cases hc
  next => rfl

/-! Claim theorems. -/

/-- Claim C1 (code_bug evaluation): under the all-challenge scenario with
max attempt count 3, the amazon retry loop is claimed to make exactly 3
fetch attempts with 2 cool-down waits before returning the Bot Protection
Detected sentinel.  On the code, the user-agent rotation list of line 105
is always empty (its comprehension variable shadows the current user
agent), random.choice raises, and the generic handler consumes the error
as a failed attempt: the run performs only 2 fetch attempts - with 2
cool-down waits and the sentinel as claimed. -/
theorem C1_amazon_all_challenge_trace :
    (∀ ua : String, rotationCandidates ua = []) ∧
    amazonAllChallenge 3 = ⟨2, 2, "Bot Protection Detected"⟩ ∧
    (amazonAllChallenge 3).fetches ≠ 3 := by
  refine ⟨?_, by decide, by decide⟩
  intro ua
  simp [rotationCandidates]

/-- Claim C2: appending a second observation for an occupied
(product, date) slot is a silent no-op: the first append inserts, the
second reports already-present, leaves the store unchanged, and exactly
one row - the first value - occupies the slot. -/
theorem C2_append_observation_write_once (hist : List PriceHistory) (pid d : Nat)
    (p1 p2 : Option ℚ) (a1 a2 : String)
    (hfree : ∀ o ∈ hist, ¬(o.product_id = pid ∧ o.date = d)) :
    (appendObservation hist pid d p1 a1).2 = AppendResult.inserted ∧
    (appendObservation (appendObservation hist pid d p1 a1).1 pid d p2 a2).2 =
      AppendResult.alreadyPresent ∧
    (appendObservation (appendObservation hist pid d p1 a1).1 pid d p2 a2).1 =
      (appendObservation hist pid d p1 a1).1 ∧
    (appendObservation (appendObservation hist pid d p1 a1).1 pid d p2 a2).1.filter
      (fun o => o.product_id == pid && o.date == d) = [⟨pid, d, p1, a1⟩] := by
  have hany : hist.any (fun o => o.product_id == pid && o.date == d) = false := by
    simp only [List.any_eq_false, Bool.and_eq_true, beq_iff_eq, not_and]
    intro o ho
    have := hfree o ho
    tauto
  have hfil : hist.filter (fun o => o.product_id == pid && o.date == d) = [] := by
    rw [List.filter_eq_nil_iff]
    simp only [List.any_eq_false] at hany
    exact hany
  have h1 : appendObservation hist pid d p1 a1 =
      (hist ++ [⟨pid, d, p1, a1⟩], AppendResult.inserted) := by
    simp [appendObservation, hany]
  have h2 : (hist ++ [(⟨pid, d, p1, a1⟩ : PriceHistory)]).any
      (fun o => o.product_id == pid && o.date == d) = true := by
    simp [List.any_append]
  refine ⟨by rw [h1], ?_, ?_, ?_⟩
  · rw [h1]
    simp [appendObservation, h2]
  · rw [h1]
    simp [appendObservation, h2]
  · rw [h1]
    simp only [appendObservation, h2, if_true]
    rw [List.filter_append, hfil]
    simp

/-- Witness for C2 at a concrete store holding one unrelated row. -/
theorem C2_append_observation_write_once_witness :
    (appendObservation [⟨2, 5, some 7, "s"⟩] 1 0 (some 100) "In Stock").2 =
      AppendResult.inserted ∧
    (appendObservation (appendObservation [⟨2, 5, some 7, "s"⟩] 1 0 (some 100) "In Stock").1
        1 0 (some 80) "Out of Stock").2 = AppendResult.alreadyPresent ∧
    (appendObservation (appendObservation [⟨2, 5, some 7, "s"⟩] 1 0 (some 100) "In Stock").1
        1 0 (some 80) "Out of Stock").1 =
      (appendObservation [⟨2, 5, some 7, "s"⟩] 1 0 (some 100) "In Stock").1 ∧
    (appendObservation (appendObservation [⟨2, 5, some 7, "s"⟩] 1 0 (some 100) "In Stock").1
        1 0 (some 80) "Out of Stock").1.filter
      (fun o => o.product_id == 1 && o.date == 0) = [⟨1, 0, some 100, "In Stock"⟩] :=
  C2_append_observation_write_once [⟨2, 5, some 7, "s"⟩] 1 0 (some 100) (some 80)
    "In Stock" "Out of Stock" (by decide)

/-- Claim C3: a save_to_db iteration emits a new alert only when the
previous observation exists, its price is determined, the current price is
determined, and the current price is strictly below the previous one; in
every other situation the emitted list is unchanged, so no alert ever fires
on an undetermined price or on an equal or increased price. -/
theorem C3_alert_requires_determined_drop (emailEnabled : Bool) (today : Nat)
    (st : RunState) (row : Row) (ev : AlertEvent)
    (hev : ev ∈ (saveRow emailEnabled today st row).events) :
    ev ∈ st.events ∨
    ∃ prod, (upsertProduct st.db.products (clean_title row.product_name) row.url).find?
        (fun p => p.url == row.url) = some prod ∧
      ∃ pr, previousObservation st.db.history prod.id today = some pr ∧
        ∃ pp pv, pr.price = some pp ∧ row.price = some pv ∧ pv < pp ∧
          ev = ⟨prod.id, pp, pv⟩ := by
  simp only [saveRow] at hev
  split at hev
  · exact Or.inl hev
  next prod hfind =>
    split at hev
    next pr pv hprev hpv =>
      split at hev
      next pp hpp =>
        split at hev
        next hcond =>
          split at hev
          · exact Or.inl hev
          · simp only [List.mem_append, List.mem_singleton] at hev
            rcases hev with h | h
            · exact Or.inl h
            · right
              refine ⟨prod, hfind, pr, hprev, pp, pv, hpp, hpv, ?_, h⟩
              exact of_decide_eq_true ((Bool.and_eq_true _ _).mp hcond).2
        next => exact Or.inl hev
      next => exact Or.inl hev
    next => exact Or.inl hev

/-- Witness for C3 at a run that does emit: the emitted event satisfies the
drop conditions. -/
theorem C3_alert_requires_determined_drop_witness :
    (⟨1, 100, 80⟩ : AlertEvent) ∈ ([] : List AlertEvent) ∨
    ∃ prod, (upsertProduct [⟨1, "P", "u"⟩] (clean_title "P") "u").find?
        (fun p => p.url == "u") = some prod ∧
      ∃ pr, previousObservation [⟨1, 0, some 100, "s"⟩] prod.id 1 = some pr ∧
        ∃ pp pv, pr.price = some pp ∧ some (80 : ℚ) = some pv ∧ pv < pp ∧
          (⟨1, 100, 80⟩ : AlertEvent) = ⟨prod.id, pp, pv⟩ :=
  C3_alert_requires_determined_drop true 1
    ⟨⟨[⟨1, "P", "u"⟩], [⟨1, 0, some 100, "s"⟩]⟩, [], []⟩
    ⟨"P", some 80, "s", "u"⟩ ⟨1, 100, 80⟩ (by decide)

/-- Claim C4 counterexample: the upsert overwrites the stored name even
with an empty new name - after upserting the empty string the stored name
is no longer Widget - refuting the claim that an empty name never replaces
the stored one. -/
theorem C4_empty_name_overwrites_counterexample :
    upsertProduct [⟨1, "Widget", "u"⟩] "" "u" = [⟨1, "", "u"⟩] ∧
    ("" : String) ≠ "Widget" := by
  decide

/-- Claim C4 (amended): the upsert with an existing URL updates the row in
place - same row count, id and url preserved - and overwrites the display
name with the latest name unconditionally, whether or not it is empty. -/
theorem C4_upsert_updates_in_place (ps : List Product) (name url : String)
    (hexists : ∃ P ∈ ps, P.url = url) :
    upsertProduct ps name url =
      ps.map (fun p => if p.url = url then ⟨p.id, name, p.url⟩ else p) ∧
    (upsertProduct ps name url).length = ps.length := by
  have hany : ps.any (fun p => p.url == url) = true := by
    rcases hexists with ⟨P, hP, hu⟩
    exact List.any_eq_true.mpr ⟨P, hP, by simpa using hu⟩
  constructor
  · simp only [upsertProduct, hany, if_true]
    apply List.map_congr_left
    intro p _
    by_cases h : p.url = url <;> simp [h]
  · simp only [upsertProduct, hany, if_true, List.length_map]

/-- Witness for the amended C4 at a concrete two-row table. -/
theorem C4_upsert_updates_in_place_witness :
    upsertProduct [⟨1, "Old", "u"⟩, ⟨2, "B", "v"⟩] "New" "u" =
      [⟨1, "New", "u"⟩, ⟨2, "B", "v"⟩] ∧
    (upsertProduct [⟨1, "Old", "u"⟩, ⟨2, "B", "v"⟩] "New" "u").length = 2 :=
  C4_upsert_updates_in_place [⟨1, "Old", "u"⟩, ⟨2, "B", "v"⟩] "New" "u"
    ⟨⟨1, "Old", "u"⟩, by decide, rfl⟩

/-- Claim C5: within a single run at most one alert is emitted per distinct
(product, previous price, new price) triple - the emitted keys of any run
are pairwise distinct, and re-processing the identical transition in the
same run emits no second alert - while the deduplication set exists only in
memory for that run, so the same transition alerts again on a later run
(drop to 80, recovery to 100, drop to 80 again). -/
theorem C5_alert_dedup_per_run :
    (∀ (emailEnabled : Bool) (today : Nat) (db : PricesDB) (results : List Row),
      ((save_to_db emailEnabled today db results).events.map AlertEvent.key).Nodup) ∧
    (save_to_db true 2 ⟨[⟨1, "P", "u"⟩], [⟨1, 1, some 100, "In Stock"⟩]⟩
      [⟨"P", some 80, "In Stock", "u"⟩, ⟨"P", some 80, "In Stock", "u"⟩]).events =
      [⟨1, 100, 80⟩] ∧
    (save_to_db true 4
      (save_to_db true 3
        (save_to_db true 2 ⟨[⟨1, "P", "u"⟩], [⟨1, 1, some 100, "In Stock"⟩]⟩
          [⟨"P", some 80, "In Stock", "u"⟩]).db
        [⟨"P", some 100, "In Stock", "u"⟩]).db
      [⟨"P", some 80, "In Stock", "u"⟩]).events = [⟨1, 100, 80⟩] :=
  ⟨save_to_db_nodup, by decide, by decide⟩

/-- Claim C6: reconciling with tracked set containing only the URL of A,
over a history store holding products A and B, deletes all of B's
observations and B's product row while leaving A's row and observations
unchanged. -/
theorem C6_reconciler_removes_only_orphans (A B : Product)
    (obsA obsB : List PriceHistory)
    (hurl : B.url ≠ A.url) (hid : A.id ≠ B.id)
    (hA : ∀ o ∈ obsA, o.product_id = A.id) (hB : ∀ o ∈ obsB, o.product_id = B.id) :
    cleanup_orphaned_data [A.url] ⟨[A, B], obsA ++ obsB⟩ = ⟨[A], obsA⟩ := by
  have horph : ([A, B].filter (fun p => decide (p.url ∉ [A.url]))).map Product.id =
      [B.id] := by
    simp [List.filter_cons, hurl]
  simp only [cleanup_orphaned_data, horph, PricesDB.mk.injEq]
  constructor
  · simp [List.filter_cons, hid]
  · rw [List.filter_append]
    rw [List.filter_eq_self.mpr, List.filter_eq_nil_iff.mpr, List.append_nil]
    · intro o ho
      simp [hB o ho]
    · intro o ho
      simp [hA o ho]
      intro hcontra
      exact hid hcontra

/-- Witness for C6 with concrete products and one observation each. -/
theorem C6_reconciler_removes_only_orphans_witness :
    cleanup_orphaned_data ["ua"]
      ⟨[⟨1, "A", "ua"⟩, ⟨2, "B", "ub"⟩], [⟨1, 0, some 5, "s"⟩] ++ [⟨2, 0, some 6, "s"⟩]⟩ =
      ⟨[⟨1, "A", "ua"⟩], [⟨1, 0, some 5, "s"⟩]⟩ :=
  C6_reconciler_removes_only_orphans ⟨1, "A", "ua"⟩ ⟨2, "B", "ub"⟩
    [⟨1, 0, some 5, "s"⟩] [⟨2, 0, some 6, "s"⟩]
    (by decide) (by decide) (by decide) (by decide)

/-- Claim C7: the price normalizer - extract_price followed by the float
conversion of save_to_db - maps the eight listed literal inputs to exactly
the listed results, for both the amazon and the eBay variant. -/
theorem C7_normalizer_literal_cases :
    amazon_normalize "$123.45" = some (123.45 : ℚ) ∧
    amazon_normalize "$1,234.56" = some (1234.56 : ℚ) ∧
    amazon_normalize "€99,99" = some (99.99 : ℚ) ∧
    amazon_normalize "£1,234.56" = some (1234.56 : ℚ) ∧
    amazon_normalize "1,234" = some (1234 : ℚ) ∧
    amazon_normalize "" = none ∧
    amazon_normalize "Out of stock" = none ∧
    amazon_normalize "$1,234,567.89" = some (1234567.89 : ℚ) ∧
    ebay_normalize "$123.45" = some (123.45 : ℚ) ∧
    ebay_normalize "$1,234.56" = some (1234.56 : ℚ) ∧
    ebay_normalize "€99,99" = some (99.99 : ℚ) ∧
    ebay_normalize "£1,234.56" = some (1234.56 : ℚ) ∧
    ebay_normalize "1,234" = some (1234 : ℚ) ∧
    ebay_normalize "" = none ∧
    ebay_normalize "Out of stock" = none ∧
    ebay_normalize "$1,234,567.89" = some (1234567.89 : ℚ) := by
  refine ⟨?_, ?_, ?_, ?_, ?_, rfl, rfl, ?_, ?_, ?_, ?_, ?_, ?_, rfl, rfl, ?_⟩
  · rw [show amazon_normalize "$123.45" = some (ratOfParts 123 45 2) from rfl]
    simp only [Option.some.injEq, ratOfParts]
    norm_num
  · rw [show amazon_normalize "$1,234.56" = some (ratOfParts 1234 56 2) from rfl]
    simp only [Option.some.injEq, ratOfParts]
    norm_num
  · rw [show amazon_normalize "€99,99" = some (ratOfParts 99 99 2) from rfl]
    simp only [Option.some.injEq, ratOfParts]
    norm_num
  · rw [show amazon_normalize "£1,234.56" = some (ratOfParts 1234 56 2) from rfl]
    simp only [Option.some.injEq, ratOfParts]
    norm_num
  · rw [show amazon_normalize "1,234" = some (ratOfParts 1234 0 0) from rfl]
    simp only [Option.some.injEq, ratOfParts]
    norm_num
  · rw [show amazon_normalize "$1,234,567.89" = some (ratOfParts 1234567 89 2) from rfl]
    simp only [Option.some.injEq, ratOfParts]
    norm_num
  · rw [show ebay_normalize "$123.45" = some (ratOfParts 123 45 2) from rfl]
    simp only [Option.some.injEq, ratOfParts]
    norm_num
  · rw [show ebay_normalize "$1,234.56" = some (ratOfParts 1234 56 2) from rfl]
    simp only [Option.some.injEq, ratOfParts]
    norm_num
  · rw [show ebay_normalize "€99,99" = some (ratOfParts 99 99 2) from rfl]
    simp only [Option.some.injEq, ratOfParts]
    norm_num
  · rw [show ebay_normalize "£1,234.56" = some (ratOfParts 1234 56 2) from rfl]
    simp only [Option.some.injEq, ratOfParts]
    norm_num
  · rw [show ebay_normalize "1,234" = some (ratOfParts 1234 0 0) from rfl]
    simp only [Option.some.injEq, ratOfParts]
    norm_num
  · rw [show ebay_normalize "$1,234,567.89" = some (ratOfParts 1234567 89 2) from rfl]
    simp only [Option.some.injEq, ratOfParts]
    norm_num

/-- Claim C8: on every input string the normalizer is total (the embedding
is a total function, matching the Python code, which guards every branch)
and returns either the undetermined sentinel or a string that float()
accepts and whose value is non-negative. -/
theorem C8_normalizer_total_nonneg (s : String) :
    etsy_extract_price s = none ∨
    ∃ q : ℚ, etsy_normalize s = some q ∧ 0 ≤ q := by
  cases hex : etsy_extract_price s with
  | none => exact Or.inl rfl
  | some r =>
    right
    have hr : ∃ out, findNum (cleanedText true s) = some out ∧ String.mk out = r := by
      by_cases hs : s = ""
      · rw [etsy_extract_price, extract_price_core, if_pos hs] at hex
        cases hex
      · rw [etsy_extract_price, extract_price_core, if_neg hs] at hex
        exact Option.map_eq_some'.mp hex
    rcases hr with ⟨out, hfind, hmk⟩
    rcases findNum_shape _ _ hfind with ⟨ds, frac, rfl, hds, hdig, hfrac⟩
    rcases pyFloatMag_of_shape ds frac hds hdig hfrac with ⟨q, hmag, hq⟩
    refine ⟨q, ?_, hq⟩
    have hhead : ∃ c t, ds ++ frac = c :: t ∧ c.isDigit = true := by
      cases ds with
      | nil => exact absurd rfl hds
      | cons a as => exact ⟨a, as ++ frac, rfl, hdig a (List.mem_cons_self a as)⟩
    rcases hhead with ⟨c, t, hct, hc⟩
    calc etsy_normalize s = (some r).bind pyFloat := by rw [etsy_normalize, hex]
      _ = pyFloat r := rfl
      _ = pyFloat (String.mk (ds ++ frac)) := by rw [hmk]
      _ = pyFloatMag (ds ++ frac) := pyFloat_of_digit_head _ c t hct hc
      _ = some q := hmag

/-- Claim C9: when the global email_alerts toggle reads as disabled at the
start of the run - it is read once and passed to the whole run - no alert
is emitted for any product, and an absent settings row defaults to
enabled. -/
theorem C9_disabled_toggle_blocks_alerts (settingsRow : Option String) (today : Nat)
    (db : PricesDB) (results : List Row)
    (hdisabled : get_email_alerts settingsRow = false) :
    (save_to_db (get_email_alerts settingsRow) today db results).events = [] ∧
    get_email_alerts none = true := by
  rw [hdisabled]
  exact ⟨save_to_db_disabled today db results, rfl⟩

/-- Witness for C9: with the stored toggle value 0, a run over a genuine
price drop emits nothing. -/
theorem C9_disabled_toggle_blocks_alerts_witness :
    (save_to_db (get_email_alerts (some "0")) 2
      ⟨[⟨1, "P", "u"⟩], [⟨1, 1, some 100, "In Stock"⟩]⟩
      [⟨"P", some 80, "In Stock", "u"⟩]).events = [] ∧
    get_email_alerts none = true :=
  C9_disabled_toggle_blocks_alerts (some "0") 2
    ⟨[⟨1, "P", "u"⟩], [⟨1, 1, some 100, "In Stock"⟩]⟩
    [⟨"P", some 80, "In Stock", "u"⟩] (by decide)

/-- Claim C10: when today's observation slot is already occupied, the
stored history is left unchanged, yet the alert comparison still uses the
newly scraped price as the current price - so an alert can be emitted whose
new-price value is persisted in no observation at all. -/
theorem C10_occupied_slot_alert_uses_unpersisted_price
    (pid prevDate today : Nat) (pname rowName u a0 a1 avail : String)
    (p0 : Option ℚ) (pp pv : ℚ)
    (hdate : prevDate < today)
    (hdrop : pv < pp)
    (hfresh : p0 ≠ some pv) :
    (saveRow true today
        ⟨⟨[⟨pid, pname, u⟩], [⟨pid, prevDate, some pp, a0⟩, ⟨pid, today, p0, a1⟩]⟩, [], []⟩
        ⟨rowName, some pv, avail, u⟩).db.history =
      [⟨pid, prevDate, some pp, a0⟩, ⟨pid, today, p0, a1⟩] ∧
    (saveRow true today
        ⟨⟨[⟨pid, pname, u⟩], [⟨pid, prevDate, some pp, a0⟩, ⟨pid, today, p0, a1⟩]⟩, [], []⟩
        ⟨rowName, some pv, avail, u⟩).events = [⟨pid, pp, pv⟩] ∧
    ∀ o ∈ (saveRow true today
        ⟨⟨[⟨pid, pname, u⟩], [⟨pid, prevDate, some pp, a0⟩, ⟨pid, today, p0, a1⟩]⟩, [], []⟩
        ⟨rowName, some pv, avail, u⟩).db.history, o.price ≠ some pv := by
  have hne : (prevDate == today) = false := by
    simp [Nat.ne_of_lt hdate]
  have h_upsert : upsertProduct [⟨pid, pname, u⟩] (clean_title rowName) u =
      [⟨pid, clean_title rowName, u⟩] := by
    simp [upsertProduct]
  have h_find : List.find? (fun p => p.url == u) [(⟨pid, clean_title rowName, u⟩ : Product)] =
      some ⟨pid, clean_title rowName, u⟩ := by
    simp [List.find?]
  have h_prev : previousObservation
      [⟨pid, prevDate, some pp, a0⟩, ⟨pid, today, p0, a1⟩] pid today =
      some ⟨pid, prevDate, some pp, a0⟩ := by
    simp [previousObservation, List.filter_cons, hdate, Nat.lt_irrefl]
  have h_app : appendObservation
      [⟨pid, prevDate, some pp, a0⟩, ⟨pid, today, p0, a1⟩] pid today (some pv)
      (clean_availability avail) =
      ([⟨pid, prevDate, some pp, a0⟩, ⟨pid, today, p0, a1⟩], .alreadyPresent) := by
    simp [appendObservation, List.any_cons, hne]
  have hdec : decide (pv < pp) = true := decide_eq_true hdrop
  refine ⟨?_, ?_, ?_⟩ <;>
    simp only [saveRow, h_upsert, h_find, h_prev, h_app, hdec, Bool.true_and, if_true,
      List.not_mem_nil, if_false, List.nil_append]
  intro o ho
  rcases List.mem_cons.mp ho with rfl | ho
  · intro hcontra
    have hppv : pp = pv := by injection hcontra
    exact absurd hppv.symm (ne_of_lt hdrop)
  · rcases List.mem_cons.mp ho with rfl | ho
    · exact hfresh
    · simp at ho

/-- Witness for C10: the occupied slot holds 90, the previous day 100, the
new scrape 80 - the history keeps its two rows while an alert from 100 to
80 fires, and 80 is stored nowhere. -/
theorem C10_occupied_slot_alert_uses_unpersisted_price_witness :
    (saveRow true 1
        ⟨⟨[⟨1, "P", "u"⟩], [⟨1, 0, some 100, "s0"⟩, ⟨1, 1, some 90, "s1"⟩]⟩, [], []⟩
        ⟨"P", some 80, "In Stock", "u"⟩).db.history =
      [⟨1, 0, some 100, "s0"⟩, ⟨1, 1, some 90, "s1"⟩] ∧
    (saveRow true 1
        ⟨⟨[⟨1, "P", "u"⟩], [⟨1, 0, some 100, "s0"⟩, ⟨1, 1, some 90, "s1"⟩]⟩, [], []⟩
        ⟨"P", some 80, "In Stock", "u"⟩).events = [⟨1, 100, 80⟩] ∧
    ∀ o ∈ (saveRow true 1
        ⟨⟨[⟨1, "P", "u"⟩], [⟨1, 0, some 100, "s0"⟩, ⟨1, 1, some 90, "s1"⟩]⟩, [], []⟩
        ⟨"P", some 80, "In Stock", "u"⟩).db.history, o.price ≠ some 80 :=
  C10_occupied_slot_alert_uses_unpersisted_price 1 0 1 "P" "P" "u" "s0" "s1" "In Stock"
    (some 90) 100 80 (by decide) (by decide) (by decide)

end PricePilot
